import Mathlib

/-!
Verification of the natural-disaster tweet-analyzer dashboard
(`disaster-heatmap-dashboard/src/App.jsx` and its heatmap component),
against its natural-language specification.

Coordinates, confidences and priority scores are modelled as rationals
(JavaScript numbers at the granularity the specification discusses:
no claim depends on binary floating-point artifacts).
-/

namespace DisasterTriage

/-- Priority-factor breakdown attached to a mock tweet
(`App.jsx`, `getMockTweets`, field `priority_factors`). -/
structure PriorityFactors where
  base_confidence : ℚ
  keyword_boost : ℚ
  location_boost : ℚ
  urgency_boost : ℚ
  geolocation_confidence : ℚ
deriving Repr, DecidableEq

/-- A scored alert as the dashboard consumes it (`App.jsx`): the fields of the
tweet objects fetched from the API or fabricated by `getMockTweets`. -/
structure Tweet where
  id : String
  text : String
  is_disaster : Bool
  confidence : ℚ
  priority_score : ℚ
  coordinates : Option (ℚ × ℚ)
  geolocation_confidence : ℚ
  priority_factors : Option PriorityFactors
  timestamp : ℚ
  simulation : Bool
deriving Repr, DecidableEq

/-- The number produced by JavaScript `x.toFixed(3)` together with the printed
sign: ECMAScript `toFixed` emits a leading "-" for every negative input and then
rounds the absolute value to the nearest thousandth, ties upward.  The pair
(sign flag, scaled rounded magnitude) determines the emitted string exactly;
in particular `-0.0001` prints as "-0.000" while `0.0001` prints as "0.000". -/
def jsFixed3 (x : ℚ) : Bool × ℤ :=
  (decide (x < 0), ⌊(if x < 0 then -x else x) * 1000 + 1 / 2⌋)

/-- The value (scaled by 1000) of a coordinate rounded at three decimal places,
as the specification reads: nearest thousandth, ties away from zero.  This is
the numeric value of the `toFixed(3)` output, which carries no signed zero. -/
def roundTo3 (x : ℚ) : ℤ :=
  if x < 0 then -⌊(-x) * 1000 + 1 / 2⌋ else ⌊x * 1000 + 1 / 2⌋

/-- Abstract form of the location-key strings built by `useHeatmapData`. -/
abbrev LocKey : Type := (Bool × ℤ) × (Bool × ℤ)

/-- The grouping key `lat.toFixed(3) + "," + lon.toFixed(3)` built by
`useHeatmapData` (`App.jsx` line 568); since `toFixed(3)` output never contains
a comma, the string is determined exactly by the two `jsFixed3` pairs. -/
def tweetKey (c : ℚ × ℚ) : LocKey :=
  (jsFixed3 c.1, jsFixed3 c.2)

/-- Key of a tweet, if it carries resolved coordinates. -/
def keyOf (t : Tweet) : Option LocKey :=
  t.coordinates.map tweetKey

/-- One entry of the `locationGroups` object built by `useHeatmapData`. -/
structure Group where
  coordinates : ℚ × ℚ
  tweets : List Tweet
  totalPriority : ℚ
  maxPriority : ℚ
  count : ℕ
deriving Repr, DecidableEq

/-- The freshly created group (`App.jsx` lines 570-578). -/
def newGroup (c : ℚ × ℚ) : Group :=
  { coordinates := c, tweets := [], totalPriority := 0, maxPriority := 0, count := 0 }

instance : Inhabited Group := ⟨newGroup (0, 0)⟩

/-- The per-tweet mutation of a group (`App.jsx` lines 580-583): push the tweet,
add its score to `totalPriority`, fold it into `maxPriority` via `Math.max`,
and increment `count`. -/
def addTweet (g : Group) (t : Tweet) : Group :=
  { coordinates := g.coordinates
    tweets := g.tweets ++ [t]
    totalPriority := g.totalPriority + t.priority_score
    maxPriority := max g.maxPriority t.priority_score
    count := g.count + 1 }

/-- Insert a tweet into the association list modelling `locationGroups`:
JavaScript objects keep non-index string keys in insertion order, so the list
order is the key-creation order. -/
def upsertGroup (gs : List (LocKey × Group)) (k : LocKey) (c : ℚ × ℚ) (t : Tweet) :
    List (LocKey × Group) :=
  match gs with
  | [] => [(k, addTweet (newGroup c) t)]
  | (k', g) :: rest =>
      if k' = k then (k', addTweet g t) :: rest
      else (k', g) :: upsertGroup rest k c t

/-- One iteration of the `tweets.forEach` loop in `useHeatmapData`: tweets
without coordinates are skipped (`if (!tweet.coordinates) return`). -/
def heatStep (gs : List (LocKey × Group)) (t : Tweet) :
    List (LocKey × Group) :=
  match t.coordinates with
  | none => gs
  | some c => upsertGroup gs (tweetKey c) c t

/-- The `locationGroups` object after the full `forEach` pass. -/
def buildGroups (ts : List Tweet) : List (LocKey × Group) :=
  ts.foldl heatStep []

/-- The record returned per group by `useHeatmapData`
(`{...group, avgPriority, intensity}`). -/
structure HeatPoint where
  coordinates : ℚ × ℚ
  tweets : List Tweet
  totalPriority : ℚ
  maxPriority : ℚ
  count : ℕ
  avgPriority : ℚ
  intensity : ℚ
deriving Repr, DecidableEq

/-- Final per-group projection of `useHeatmapData`
(`App.jsx` lines 587-591). -/
def toHeatPoint (g : Group) : HeatPoint :=
  { coordinates := g.coordinates
    tweets := g.tweets
    totalPriority := g.totalPriority
    maxPriority := g.maxPriority
    count := g.count
    avgPriority := g.totalPriority / (g.count : ℚ)
    intensity := g.maxPriority }

/-- The clustering operation `useHeatmapData` (`App.jsx` lines 558-593):
group coordinate-bearing tweets by their 3-decimal `toFixed` key, then map
each group to a heat point with derived average priority and intensity.
(The early return on an empty input produces `[]`, which coincides with
folding over the empty list.) -/
def useHeatmapData (ts : List Tweet) : List HeatPoint :=
  (buildGroups ts).map (fun kg => toHeatPoint kg.2)

/-- Two alerts land in one cluster of the heatmap for input `ts`. -/
def sameCluster (ts : List Tweet) (t1 t2 : Tweet) : Prop :=
  ∃ g ∈ useHeatmapData ts, t1 ∈ g.tweets ∧ t2 ∈ g.tweets

/-- A concrete tweet builder used by concrete instances below: only identity,
coordinates and score vary. -/
def mkTweet (i : String) (c : Option (ℚ × ℚ)) (p : ℚ) : Tweet :=
  { id := i, text := "", is_disaster := true, confidence := 0, priority_score := p
    coordinates := c, geolocation_confidence := 0, priority_factors := none
    timestamp := 0, simulation := false }

/-- First alert of the specification's concrete clustering test:
coordinates (37.7750, -122.4190). -/
def sfAlertA : Tweet := mkTweet "sfA" (some (37775 / 1000, -(122419 / 1000))) (9 / 10)

/-- Second alert of the specification's concrete clustering test:
coordinates (37.7751, -122.4194). -/
def sfAlertB : Tweet := mkTweet "sfB" (some (377751 / 10000, -(1224194 / 10000))) (8 / 10)

/-- An alert at latitude -0.0001: its latitude rounds to zero at three decimal
places but `toFixed(3)` prints it as "-0.000". -/
def negZeroAlert : Tweet := mkTweet "neg" (some (-(1 / 10000), 0)) 1

/-- An alert at latitude 0.0001: its latitude also rounds to zero at three
decimal places, printed as "0.000". -/
def posZeroAlert : Tweet := mkTweet "pos" (some (1 / 10000, 0)) 1

/-- An alert carrying a negative priority score (nothing in `useHeatmapData`
rules such inputs out). -/
def negScoreAlert : Tweet := mkTweet "negscore" (some (0, 0)) (-1)

/-- Priority banding used by the alert list rendering
(`App.jsx` lines 249-254, `getPriorityLevel`). -/
def getPriorityLevel (score : ℚ) : String :=
  if score ≥ 9 / 10 then "CRITICAL"
  else if score ≥ 7 / 10 then "HIGH"
  else if score ≥ 5 / 10 then "MEDIUM"
  else "LOW"

/-- The data the raw alert feed displays for one tweet (`App.jsx` lines
332-384): priority band, text, confidence, priority and optional coordinates,
plus the SIM badge driven by the `simulation` flag. -/
structure FeedEntry where
  id : String
  level : String
  text : String
  confidence : ℚ
  priority_score : ℚ
  coordinates : Option (ℚ × ℚ)
  simulationTag : Bool
deriving Repr, DecidableEq

/-- Rendering of a single tweet in the raw alert feed; no field is altered. -/
def renderFeedEntry (t : Tweet) : FeedEntry :=
  { id := t.id
    level := getPriorityLevel t.priority_score
    text := t.text
    confidence := t.confidence
    priority_score := t.priority_score
    coordinates := t.coordinates
    simulationTag := t.simulation }

/-- The raw alert feed: `tweets.map(...)` over the whole list, with no
coordinate filter (`App.jsx` line 332). -/
def renderedFeed (ts : List Tweet) : List FeedEntry :=
  ts.map renderFeedEntry

/-- The singleton cluster produced by `useHeatmapData` for input `[sfAlertA]`. -/
def sfSoloCluster : HeatPoint :=
  toHeatPoint (addTweet (newGroup (37775 / 1000, -(122419 / 1000))) sfAlertA)

/-- The singleton cluster produced by `useHeatmapData` for input `[sfAlertB]`. -/
def sfSoloClusterB : HeatPoint :=
  toHeatPoint (addTweet (newGroup (377751 / 10000, -(1224194 / 10000))) sfAlertB)

/-- Stable insertion of a tweet into a list sorted by descending priority
score: the tweet moves past strictly higher-scoring entries only, so equal
scores keep their original relative order.  JavaScript requires
`Array.prototype.sort` to be stable, and a stable sort for a given comparator
is extensionally unique, so this models
`liveTweets.sort((a, b) => (b.priority_score 0) - (a.priority_score 0))`
of `loadTweets` (`App.jsx` line 104). -/
def insertDesc (t : Tweet) : List Tweet → List Tweet
  | [] => [t]
  | u :: us =>
      if t.priority_score < u.priority_score then u :: insertDesc t us
      else t :: u :: us

/-- The sorted (priority-descending, stable) view built by `loadTweets`. -/
def sortByPriorityDesc : List Tweet → List Tweet
  | [] => []
  | t :: ts => insertDesc t (sortByPriorityDesc ts)

/-- Outcome of `fetchLiveTweets` (`App.jsx` lines 22-37): the tweet list on a
successful response, `[]` on a non-ok status or a network error. -/
def fetchLiveTweets (r : Except String (List Tweet)) : List Tweet :=
  match r with
  | .ok ts => ts
  | .error _ => []

/-- `getMockTweets` (`App.jsx` lines 126-217), relative to the current time
`now`: the fixed five-element fallback list, each entry flagged
`simulation: true`; timestamps are `Date.now()` minus fixed millisecond
offsets. -/
def getMockTweets (now : ℚ) : List Tweet :=
  [{ id := "mock_1"
     text := "URGENT: Major earthquake hits downtown area, buildings collapsing!"
     is_disaster := true
     confidence := 911 / 1000
     priority_score := 1
     coordinates := some (377749 / 10000, -(1224194 / 10000))
     geolocation_confidence := 9 / 10
     priority_factors := some
       { base_confidence := 911 / 1000, keyword_boost := 0, location_boost := 2 / 10
         urgency_boost := 3 / 10, geolocation_confidence := 9 / 10 }
     timestamp := now - 60000
     simulation := true },
   { id := "mock_2"
     text := "Wildfire spreading rapidly near residential areas, evacuations ordered"
     is_disaster := true
     confidence := 809 / 1000
     priority_score := 1
     coordinates := some (340522 / 10000, -(1182437 / 10000))
     geolocation_confidence := 9 / 10
     priority_factors := some
       { base_confidence := 809 / 1000, keyword_boost := 1 / 10, location_boost := 2 / 10
         urgency_boost := 15 / 100, geolocation_confidence := 9 / 10 }
     timestamp := now - 120000
     simulation := true },
   { id := "mock_3"
     text := "Flash flood warning issued, water levels rising quickly"
     is_disaster := true
     confidence := 840 / 1000
     priority_score := 1
     coordinates := some (297604 / 10000, -(953698 / 10000))
     geolocation_confidence := 9 / 10
     priority_factors := some
       { base_confidence := 840 / 1000, keyword_boost := 1 / 10, location_boost := 2 / 10
         urgency_boost := 15 / 100, geolocation_confidence := 9 / 10 }
     timestamp := now - 180000
     simulation := true },
   { id := "mock_4"
     text := "Tornado spotted moving towards city center"
     is_disaster := true
     confidence := 755 / 1000
     priority_score := 1
     coordinates := some (355653 / 10000, -(969289 / 10000))
     geolocation_confidence := 9 / 10
     priority_factors := some
       { base_confidence := 755 / 1000, keyword_boost := 0, location_boost := 2 / 10
         urgency_boost := 15 / 100, geolocation_confidence := 9 / 10 }
     timestamp := now - 240000
     simulation := true },
   { id := "mock_5"
     text := "Building explosion reported, emergency services responding"
     is_disaster := true
     confidence := 698 / 1000
     priority_score := 1
     coordinates := some (407128 / 10000, -(740060 / 10000))
     geolocation_confidence := 9 / 10
     priority_factors := some
       { base_confidence := 698 / 1000, keyword_boost := 1 / 10, location_boost := 2 / 10
         urgency_boost := 15 / 100, geolocation_confidence := 9 / 10 }
     timestamp := now - 300000
     simulation := true }]

/-- `loadTweets` (`App.jsx` lines 86-123): after the health check, an online
API's live fetch result is sorted by priority score when non-empty; an offline
API or an empty fetch substitutes the mock list.  (The trailing `.map` only
fills display ids and timestamps and preserves order.) -/
def loadTweets (apiOnline : Bool) (fetched : Except String (List Tweet)) (now : ℚ) :
    List Tweet :=
  if apiOnline then
    if (fetchLiveTweets fetched).length > 0 then sortByPriorityDesc (fetchLiveTweets fetched)
    else getMockTweets now
  else getMockTweets now

/-- Modelled from the spec: the backend priority scorer is not among the
repository sources (only `FINAL_SYSTEM_DOCUMENTATION.md` documents it).
Following specification §4.3, the four externally configurable bonus
constants: a fixed urgency bonus, a two-tier location bonus (resolved
coordinates vs. textual evidence only) and a fixed disaster-keyword bonus. -/
structure ScoreConfig where
  urgencyBonus : ℚ
  locationBonusCoord : ℚ
  locationBonusText : ℚ
  keywordBonus : ℚ
deriving Repr, DecidableEq

/-- Modelled from the spec: the raw weighted sum of the priority scorer —
classifier confidence plus the applicable bonuses
(`FINAL_SYSTEM_DOCUMENTATION.md` lines 33-40, specification §4.3). -/
def priorityRaw (cfg : ScoreConfig) (conf : ℚ)
    (urgent hasCoord hasTextLoc kw : Bool) : ℚ :=
  conf + (if urgent then cfg.urgencyBonus else 0) +
    (if hasCoord then cfg.locationBonusCoord
     else if hasTextLoc then cfg.locationBonusText else 0) +
    (if kw then cfg.keywordBonus else 0)

/-- Modelled from the spec: the final priority score — the raw sum clamped to
[0, 1] ("sums that exceed 1 saturate rather than overflow"). -/
def priorityScore (cfg : ScoreConfig) (conf : ℚ)
    (urgent hasCoord hasTextLoc kw : Bool) : ℚ :=
  max 0 (min 1 (priorityRaw cfg conf urgent hasCoord hasTextLoc kw))

/-- The documented bonus configuration: +0.3 urgency, +0.2 coordinate /
+0.1 textual location, +0.1 disaster keyword
(`FINAL_SYSTEM_DOCUMENTATION.md` lines 36-40). -/
def docConfig : ScoreConfig :=
  { urgencyBonus := 3 / 10, locationBonusCoord := 2 / 10
    locationBonusText := 1 / 10, keywordBonus := 1 / 10 }

/-- Modelled from the spec: the urgency-bonus component of the backend priority
scorer (absent from the repository sources).  Specification §4.3: "a fixed
urgency bonus added once if the text contains any term from a configured
urgency-keyword set ..., independent of how many such terms match".  A text is
modelled as its list of terms. -/
def urgencyBonusOf (urgencyKeywords : List String) (bonus : ℚ)
    (textTerms : List String) : ℚ :=
  if ∃ k ∈ urgencyKeywords, k ∈ textTerms then bonus else 0

/-- The second and third stage of `search_tweets_resilient`
(`unnamed/part_001` lines 399-418): try the backup provider; a raised error or
an empty result falls through to the simulation provider, whose result is
returned as-is.  The flag records whether the simulation was consulted. -/
def resilientTail {α : Type} (backup : Except String (List α)) (simulation : List α) :
    List α × Bool :=
  match backup with
  | .ok ts => if ts.isEmpty then (simulation, true) else (ts, false)
  | .error _ => (simulation, true)

/-- `search_tweets_resilient` (`unnamed/part_001` lines 399-418): try the
primary provider; `if tweets: return tweets` keeps its result only when it is
non-empty, otherwise the backup and finally the simulation provider are tried
the same way.  Returns the chosen items plus two flags recording whether the
backup and the simulation provider were consulted. -/
def searchTweetsResilient {α : Type} (primary backup : Except String (List α))
    (simulation : List α) : List α × Bool × Bool :=
  match primary with
  | .ok ts =>
      if ts.isEmpty then
        ((resilientTail backup simulation).1, true, (resilientTail backup simulation).2)
      else (ts, false, false)
  | .error _ =>
      ((resilientTail backup simulation).1, true, (resilientTail backup simulation).2)

/-- `search_tweets_with_fallback` (`unnamed/part_001` lines 185-202): in
simulation mode, or when the real API raises or returns an empty list, the
simulation result is returned; the flag records whether simulation was used. -/
def searchTweetsWithFallback {α : Type} (simulationMode : Bool)
    (real : Except String (List α)) (simulation : List α) : List α × Bool :=
  if simulationMode then (simulation, true)
  else
    match real with
    | .ok ts => if ts.isEmpty then (simulation, true) else (ts, false)
    | .error _ => (simulation, true)

/-- Concrete input for the sorting witness: two alerts, equal timestamps,
scores 0.5 and 1. -/
def wSortList : List Tweet := [mkTweet "w1" none (1 / 2), mkTweet "w2" none 1]

/-- Well-formedness of one `locationGroups` entry: a non-empty member list whose
statistics agree with the members, every member keyed to the entry's key. -/
def GroupOK (k : LocKey) (g : Group) : Prop :=
  g.tweets ≠ [] ∧
  g.count = g.tweets.length ∧
  g.totalPriority = (g.tweets.map Tweet.priority_score).sum ∧
  g.maxPriority = (g.tweets.map Tweet.priority_score).foldl max 0 ∧
  ∀ t ∈ g.tweets, keyOf t = some k

/-- Well-formedness of the whole `locationGroups` association list. -/
def GroupsOK (gs : List (LocKey × Group)) : Prop :=
  (gs.map Prod.fst).Nodup ∧ ∀ kg ∈ gs, GroupOK kg.1 kg.2

lemma groupOK_addTweet {k : LocKey} {g : Group} {t : Tweet}
    (hg : GroupOK k g) (ht : keyOf t = some k) : GroupOK k (addTweet g t) := by
  obtain ⟨hne, hcount, htot, hmax, hkeys⟩ := hg
  refine ⟨by simp [addTweet], ?_, ?_, ?_, ?_⟩
  · simp [addTweet, hcount]
  · simp [addTweet, htot]
  · simp [addTweet, hmax]
  · intro u hu
    have hu' : u ∈ g.tweets ∨ u = t := by simpa [addTweet] using hu
    rcases hu' with h | rfl
    · exact hkeys u h
    · exact ht

lemma groupOK_new {k : LocKey} {c : ℚ × ℚ} {t : Tweet} (ht : keyOf t = some k) :
    GroupOK k (addTweet (newGroup c) t) := by
  refine ⟨by simp [addTweet, newGroup], by simp [addTweet, newGroup], ?_, ?_, ?_⟩
  · simp [addTweet, newGroup]
  · simp [addTweet, newGroup]
  · intro u hu
    have hu' : u = t := by simpa [addTweet, newGroup] using hu
    rw [hu']
    exact ht

/-- The keys of the association list after an upsert: unchanged if the key was
already present, otherwise the new key is appended. -/
lemma upsertGroup_keys (gs : List (LocKey × Group)) (k : LocKey) (c : ℚ × ℚ) (t : Tweet) :
    (upsertGroup gs k c t).map Prod.fst =
      if k ∈ gs.map Prod.fst then gs.map Prod.fst else gs.map Prod.fst ++ [k] := by
  induction gs with
  | nil => simp [upsertGroup]
  | cons kg rest ih =>
    obtain ⟨k', g⟩ := kg
    by_cases hk : k' = k
    · simp [upsertGroup, hk]
    · simp only [upsertGroup, if_neg hk, List.map_cons, ih]
      by_cases hmem : k ∈ rest.map Prod.fst
      · simp [hmem, Ne.symm hk]
      · simp [hmem, Ne.symm hk]

lemma groupsOK_upsert {gs : List (LocKey × Group)} {k : LocKey} {c : ℚ × ℚ} {t : Tweet}
    (h : GroupsOK gs) (ht : keyOf t = some k) : GroupsOK (upsertGroup gs k c t) := by
  induction gs with
  | nil =>
    constructor
    · simp [upsertGroup]
    · intro kg hkg
      have : kg = (k, addTweet (newGroup c) t) := by simpa [upsertGroup] using hkg
      rw [this]
      exact groupOK_new ht
  | cons kg rest ih =>
    obtain ⟨k', g⟩ := kg
    obtain ⟨hnd, hall⟩ := h
    simp only [List.map_cons, List.nodup_cons] at hnd
    by_cases hk : k' = k
    · subst hk
      refine ⟨?_, ?_⟩
      · simpa [upsertGroup, addTweet] using hnd
      · intro kg' hkg'
        have hkg'' : kg' = (k', addTweet g t) ∨ kg' ∈ rest := by
          simpa [upsertGroup] using hkg'
        rcases hkg'' with h' | h'
        · rw [h']
          exact groupOK_addTweet (hall (k', g) (List.mem_cons_self _ _)) ht
        · exact hall kg' (List.mem_cons_of_mem _ h')
    · have hrest : GroupsOK rest :=
        ⟨hnd.2, fun kg' h' => hall kg' (List.mem_cons_of_mem _ h')⟩
      obtain ⟨ihnd, ihall⟩ := ih hrest
      constructor
      · simp only [upsertGroup, if_neg hk, List.map_cons, List.nodup_cons]
        refine ⟨?_, ihnd⟩
        rw [upsertGroup_keys]
        by_cases hmem : k ∈ rest.map Prod.fst
        · simpa [hmem] using hnd.1
        · simp only [if_neg hmem, List.mem_append, List.mem_singleton]
          rintro (hin | rfl)
          · exact hnd.1 hin
          · exact hk rfl
      · intro kg' hkg'
        have hkg'' : kg' = (k', g) ∨ kg' ∈ upsertGroup rest k c t := by
          simpa [upsertGroup, if_neg hk] using hkg'
        rcases hkg'' with h' | h'
        · rw [h']
          exact hall (k', g) (List.mem_cons_self _ _)
        · exact ihall kg' h'

lemma groupsOK_heatStep {gs : List (LocKey × Group)} {t : Tweet}
    (h : GroupsOK gs) : GroupsOK (heatStep gs t) := by
  unfold heatStep
  cases hc : t.coordinates with
  | none => exact h
  | some c => exact groupsOK_upsert h (by simp [keyOf, hc])

lemma groupsOK_foldl {ts : List Tweet} :
    ∀ {gs}, GroupsOK gs → GroupsOK (ts.foldl heatStep gs) := by
  induction ts with
  | nil => intro gs h; exact h
  | cons t ts ih => intro gs h; exact ih (groupsOK_heatStep h)

lemma groupsOK_buildGroups (ts : List Tweet) : GroupsOK (buildGroups ts) :=
  groupsOK_foldl ⟨by simp, by simp⟩

/-- Membership in a group survives a later upsert (a group's member list is only
ever appended to). -/
lemma upsert_mem_mono {gs : List (LocKey × Group)} {k : LocKey} {c : ℚ × ℚ}
    {t t' : Tweet} {k' : LocKey} {g' : Group}
    (h : (k', g') ∈ gs) (ht' : t' ∈ g'.tweets) :
    ∃ g'', (k', g'') ∈ upsertGroup gs k c t ∧ t' ∈ g''.tweets := by
  induction gs with
  | nil => cases h
  | cons kg rest ih =>
    obtain ⟨k0, g0⟩ := kg
    rcases List.mem_cons.mp h with h' | h'
    · rw [Prod.mk.injEq] at h'
      obtain ⟨hL, hR⟩ := h'
      subst hL
      subst hR
      by_cases hk : k' = k
      · subst hk
        refine ⟨addTweet g' t, ?_, ?_⟩
        · simp [upsertGroup]
        · simp [addTweet, ht']
      · exact ⟨g', by simp [upsertGroup, if_neg hk], ht'⟩
    · by_cases hk : k0 = k
      · subst hk
        exact ⟨g', by simp [upsertGroup, List.mem_cons_of_mem _ h'], ht'⟩
      · obtain ⟨g'', hmem, ht''⟩ := ih h'
        exact ⟨g'', by simp [upsertGroup, if_neg hk, List.mem_cons_of_mem _ hmem], ht''⟩

/-- The upserted tweet is a member of the group at its key. -/
lemma upsert_mem_self (gs : List (LocKey × Group)) (k : LocKey) (c : ℚ × ℚ) (t : Tweet) :
    ∃ g', (k, g') ∈ upsertGroup gs k c t ∧ t ∈ g'.tweets := by
  induction gs with
  | nil => exact ⟨addTweet (newGroup c) t, by simp [upsertGroup], by simp [addTweet]⟩
  | cons kg rest ih =>
    obtain ⟨k0, g0⟩ := kg
    by_cases hk : k0 = k
    · subst hk
      exact ⟨addTweet g0 t, by simp [upsertGroup], by simp [addTweet]⟩
    · obtain ⟨g', hmem, ht⟩ := ih
      exact ⟨g', by simp [upsertGroup, if_neg hk, List.mem_cons_of_mem _ hmem], ht⟩

lemma heatStep_mem_mono {gs : List (LocKey × Group)} {t t' : Tweet}
    {k' : LocKey} {g' : Group} (h : (k', g') ∈ gs) (ht' : t' ∈ g'.tweets) :
    ∃ g'', (k', g'') ∈ heatStep gs t ∧ t' ∈ g''.tweets := by
  unfold heatStep
  cases t.coordinates with
  | none => exact ⟨g', h, ht'⟩
  | some c => exact upsert_mem_mono h ht'

lemma foldl_mem_mono {ts : List Tweet} :
    ∀ {gs} {t' : Tweet} {k' : LocKey} {g' : Group}, (k', g') ∈ gs → t' ∈ g'.tweets →
      ∃ g'', (k', g'') ∈ ts.foldl heatStep gs ∧ t' ∈ g''.tweets := by
  induction ts with
  | nil => intro gs t' k' g' h ht'; exact ⟨g', h, ht'⟩
  | cons t ts ih =>
    intro gs t' k' g' h ht'
    obtain ⟨g'', hmem, ht''⟩ := heatStep_mem_mono (t := t) h ht'
    exact ih hmem ht''

/-- Completeness: every coordinate-bearing tweet of the input ends up in the
group at its key. -/
lemma buildGroups_mem {ts : List Tweet} {t : Tweet} {k : LocKey}
    (hmem : t ∈ ts) (hk : keyOf t = some k) :
    ∃ g, (k, g) ∈ buildGroups ts ∧ t ∈ g.tweets := by
  unfold buildGroups
  suffices h : ∀ {gs}, ((∃ g, (k, g) ∈ gs ∧ t ∈ g.tweets) ∨ t ∈ ts) →
      ∃ g, (k, g) ∈ ts.foldl heatStep gs ∧ t ∈ g.tweets from h (Or.inr hmem)
  clear hmem
  induction ts with
  | nil =>
    intro gs h
    rcases h with ⟨g, hg, ht⟩ | h
    · exact ⟨g, hg, ht⟩
    · cases h
  | cons t0 ts ih =>
    intro gs h
    rcases h with ⟨g, hg, ht⟩ | h
    · obtain ⟨g'', hmem', ht''⟩ := heatStep_mem_mono (t := t0) hg ht
      exact ih (Or.inl ⟨g'', hmem', ht''⟩)
    · rcases List.mem_cons.mp h with rfl | hts
      · obtain ⟨c, hc⟩ : ∃ c, t.coordinates = some c := by
          cases hco : t.coordinates with
          | none => simp [keyOf, hco] at hk
          | some c => exact ⟨c, rfl⟩
        have hkey : tweetKey c = k := by simpa [keyOf, hc] using hk
        have hstep : heatStep gs t = upsertGroup gs k c t := by
          simp [heatStep, hc, hkey]
        obtain ⟨g', hmem', ht'⟩ := upsert_mem_self gs k c t
        rw [List.foldl_cons, hstep]
        exact ih (Or.inl ⟨g', hmem', ht'⟩)
      · exact ih (Or.inr hts)

/-- With distinct keys, an association-list key determines its group. -/
lemma groupsOK_key_unique {gs : List (LocKey × Group)} (h : GroupsOK gs)
    {k : LocKey} {g1 g2 : Group} (h1 : (k, g1) ∈ gs) (h2 : (k, g2) ∈ gs) : g1 = g2 := by
  obtain ⟨hnd, -⟩ := h
  induction gs with
  | nil => cases h1
  | cons kg rest ih =>
    obtain ⟨k0, g0⟩ := kg
    simp only [List.map_cons, List.nodup_cons] at hnd
    rcases List.mem_cons.mp h1 with e1 | e1 <;> rcases List.mem_cons.mp h2 with e2 | e2
    · rw [Prod.mk.injEq] at e1 e2
      exact e1.2.trans e2.2.symm
    · rw [Prod.mk.injEq] at e1
      exact absurd (e1.1 ▸ List.mem_map_of_mem Prod.fst e2) hnd.1
    · rw [Prod.mk.injEq] at e2
      exact absurd (e2.1 ▸ List.mem_map_of_mem Prod.fst e1) hnd.1
    · exact ih e1 e2 hnd.2

lemma upsert_members_pred {P : Tweet → Prop} {gs : List (LocKey × Group)} {k : LocKey}
    {c : ℚ × ℚ} {t : Tweet}
    (hgs : ∀ kg ∈ gs, ∀ u ∈ kg.2.tweets, P u) (ht : P t) :
    ∀ kg ∈ upsertGroup gs k c t, ∀ u ∈ kg.2.tweets, P u := by
  induction gs with
  | nil =>
    intro kg hkg u hu
    have hkg' : kg = (k, addTweet (newGroup c) t) := by simpa [upsertGroup] using hkg
    rw [hkg'] at hu
    have hu' : u = t := by simpa [addTweet, newGroup] using hu
    rw [hu']
    exact ht
  | cons kg0 rest ih =>
    obtain ⟨k0, g0⟩ := kg0
    by_cases hk : k0 = k
    · subst hk
      intro kg hkg u hu
      have hkg' : kg = (k0, addTweet g0 t) ∨ kg ∈ rest := by simpa [upsertGroup] using hkg
      rcases hkg' with rfl | h'
      · have hu' : u ∈ g0.tweets ∨ u = t := by simpa [addTweet] using hu
        rcases hu' with h'' | rfl
        · exact hgs (k0, g0) (List.mem_cons_self _ _) u h''
        · exact ht
      · exact hgs kg (List.mem_cons_of_mem _ h') u hu
    · intro kg hkg u hu
      have hkg' : kg = (k0, g0) ∨ kg ∈ upsertGroup rest k c t := by
        simpa [upsertGroup, if_neg hk] using hkg
      rcases hkg' with rfl | h'
      · exact hgs (k0, g0) (List.mem_cons_self _ _) u hu
      · exact ih (fun kg' h'' u' hu' => hgs kg' (List.mem_cons_of_mem _ h'') u' hu') kg h' u hu

lemma heatStep_members_pred {P : Tweet → Prop} {gs : List (LocKey × Group)} {t : Tweet}
    (hgs : ∀ kg ∈ gs, ∀ u ∈ kg.2.tweets, P u) (ht : P t) :
    ∀ kg ∈ heatStep gs t, ∀ u ∈ kg.2.tweets, P u := by
  unfold heatStep
  cases t.coordinates with
  | none => exact hgs
  | some c => exact upsert_members_pred hgs ht

lemma foldl_members_pred (P : Tweet → Prop) {ts : List Tweet} :
    ∀ {gs}, (∀ kg ∈ gs, ∀ u ∈ kg.2.tweets, P u) → (∀ t ∈ ts, P t) →
      ∀ kg ∈ ts.foldl heatStep gs, ∀ u ∈ kg.2.tweets, P u := by
  induction ts with
  | nil => intro gs hgs hts; exact hgs
  | cons t ts ih =>
    intro gs hgs hts
    exact ih (heatStep_members_pred hgs (hts t (List.mem_cons_self _ _)))
      (fun u hu => hts u (List.mem_cons_of_mem _ hu))

/-- Every member of every group is drawn from the input list. -/
lemma buildGroups_members {ts : List Tweet} :
    ∀ kg ∈ buildGroups ts, ∀ u ∈ kg.2.tweets, u ∈ ts :=
  foldl_members_pred (· ∈ ts) (by simp) (fun _ h => h)

/-- Tweets without coordinates do not affect the grouping fold at all. -/
lemma foldl_heatStep_filter (ts : List Tweet) :
    ∀ gs, ts.foldl heatStep gs =
      (ts.filter (fun t => t.coordinates.isSome)).foldl heatStep gs := by
  induction ts with
  | nil => intro gs; rfl
  | cons t ts ih =>
    intro gs
    cases hc : t.coordinates with
    | none =>
      rw [List.foldl_cons, List.filter_cons_of_neg (by simp [hc])]
      rw [show heatStep gs t = gs from by simp [heatStep, hc]]
      exact ih gs
    | some c =>
      rw [List.foldl_cons, List.filter_cons_of_pos (by simp [hc]), List.foldl_cons]
      exact ih (heatStep gs t)

lemma mem_insertDesc {t u : Tweet} {l : List Tweet} :
    u ∈ insertDesc t l ↔ u = t ∨ u ∈ l := by
  induction l with
  | nil => simp [insertDesc]
  | cons v vs ih =>
    by_cases h : t.priority_score < v.priority_score
    · simp only [insertDesc, if_pos h, List.mem_cons, ih]
      tauto
    · simp only [insertDesc, if_neg h, List.mem_cons]

lemma insertDesc_perm (t : Tweet) (l : List Tweet) : (insertDesc t l).Perm (t :: l) := by
  induction l with
  | nil => rfl
  | cons v vs ih =>
    by_cases h : t.priority_score < v.priority_score
    · rw [insertDesc, if_pos h]
      exact ((ih.cons v).trans (List.Perm.swap t v vs)).symm.symm
    · rw [insertDesc, if_neg h]

lemma insertDesc_sorted {t : Tweet} {l : List Tweet}
    (hl : l.Pairwise (fun a b => b.priority_score ≤ a.priority_score)) :
    (insertDesc t l).Pairwise (fun a b => b.priority_score ≤ a.priority_score) := by
  induction l with
  | nil => simp [insertDesc]
  | cons v vs ih =>
    obtain ⟨hv, hvs⟩ := List.pairwise_cons.mp hl
    by_cases h : t.priority_score < v.priority_score
    · rw [insertDesc, if_pos h]
      refine List.pairwise_cons.mpr ⟨?_, ih hvs⟩
      intro u hu
      rcases mem_insertDesc.mp hu with rfl | hu'
      · exact le_of_lt h
      · exact hv u hu'
    · rw [insertDesc, if_neg h]
      refine List.pairwise_cons.mpr ⟨?_, hl⟩
      intro u hu
      rcases List.mem_cons.mp hu with rfl | hu'
      · exact le_of_not_lt h
      · exact le_trans (hv u hu') (le_of_not_lt h)

lemma insertDesc_filter (t : Tweet) (l : List Tweet) (q : ℚ) :
    (insertDesc t l).filter (fun u => decide (u.priority_score = q)) =
      (t :: l).filter (fun u => decide (u.priority_score = q)) := by
  induction l with
  | nil => rfl
  | cons v vs ih =>
    by_cases h : t.priority_score < v.priority_score
    · rw [insertDesc, if_pos h]
      by_cases pt : t.priority_score = q <;> by_cases pv : v.priority_score = q
      · exact absurd (pt.trans pv.symm) (ne_of_lt h)
      · simp [List.filter_cons, pt, pv, ih]
      · simp [List.filter_cons, pt, pv, ih]
      · simp [List.filter_cons, pt, pv, ih]
    · rw [insertDesc, if_neg h]

lemma sortByPriorityDesc_sorted (ts : List Tweet) :
    (sortByPriorityDesc ts).Pairwise (fun a b => b.priority_score ≤ a.priority_score) := by
  induction ts with
  | nil => simp [sortByPriorityDesc]
  | cons t ts ih => exact insertDesc_sorted ih

lemma sortByPriorityDesc_perm (ts : List Tweet) : (sortByPriorityDesc ts).Perm ts := by
  induction ts with
  | nil => rfl
  | cons t ts ih => exact (insertDesc_perm t (sortByPriorityDesc ts)).trans (ih.cons t)

lemma sortByPriorityDesc_filter (ts : List Tweet) (q : ℚ) :
    (sortByPriorityDesc ts).filter (fun u => decide (u.priority_score = q)) =
      ts.filter (fun u => decide (u.priority_score = q)) := by
  induction ts with
  | nil => rfl
  | cons t ts ih =>
    rw [sortByPriorityDesc, insertDesc_filter, List.filter_cons, List.filter_cons, ih]

lemma insertDesc_pairwise_tiebreak {t : Tweet} {l : List Tweet}
    (hl : l.Pairwise
      (fun a b => a.priority_score = b.priority_score → b.timestamp ≤ a.timestamp))
    (ht : ∀ u ∈ l, t.priority_score = u.priority_score → u.timestamp ≤ t.timestamp) :
    (insertDesc t l).Pairwise
      (fun a b => a.priority_score = b.priority_score → b.timestamp ≤ a.timestamp) := by
  induction l with
  | nil => simp [insertDesc]
  | cons v vs ih =>
    obtain ⟨hv, hvs⟩ := List.pairwise_cons.mp hl
    by_cases h : t.priority_score < v.priority_score
    · rw [insertDesc, if_pos h]
      refine List.pairwise_cons.mpr ⟨?_, ?_⟩
      · intro u hu
        rcases mem_insertDesc.mp hu with rfl | hu'
        · intro he
          exact absurd he.symm (ne_of_lt h)
        · exact hv u hu'
      · exact ih hvs (fun u hu => ht u (List.mem_cons_of_mem _ hu))
    · rw [insertDesc, if_neg h]
      exact List.pairwise_cons.mpr ⟨ht, hl⟩

lemma sortByPriorityDesc_tiebreak {ts : List Tweet}
    (hts : ts.Pairwise (fun a b => b.timestamp ≤ a.timestamp)) :
    (sortByPriorityDesc ts).Pairwise
      (fun a b => a.priority_score = b.priority_score → b.timestamp ≤ a.timestamp) := by
  induction ts with
  | nil => simp [sortByPriorityDesc]
  | cons t ts ih =>
    obtain ⟨h1, h2⟩ := List.pairwise_cons.mp hts
    refine insertDesc_pairwise_tiebreak (ih h2) ?_
    intro u hu he
    exact h1 u ((sortByPriorityDesc_perm ts).mem_iff.mp hu)

/-- Two coordinates print to the same `toFixed(3)` string exactly when they
round to the same value at three decimals and agree on the sign of the
printed zero. -/
lemma jsFixed3_eq_iff (x y : ℚ) :
    jsFixed3 x = jsFixed3 y ↔ (roundTo3 x = roundTo3 y ∧ (x < 0 ↔ y < 0)) := by
  unfold jsFixed3 roundTo3
  by_cases hx : x < 0 <;> by_cases hy : y < 0 <;>
    simp [hx, hy, Prod.ext_iff, neg_inj]

lemma tweetKey_eq_iff (c1 c2 : ℚ × ℚ) :
    tweetKey c1 = tweetKey c2 ↔
      ((roundTo3 c1.1 = roundTo3 c2.1 ∧ (c1.1 < 0 ↔ c2.1 < 0)) ∧
       (roundTo3 c1.2 = roundTo3 c2.2 ∧ (c1.2 < 0 ↔ c2.2 < 0))) := by
  unfold tweetKey
  rw [Prod.ext_iff]
  simp only [jsFixed3_eq_iff]

lemma mem_useHeatmapData {ts : List Tweet} {g : HeatPoint} :
    g ∈ useHeatmapData ts ↔ ∃ kg ∈ buildGroups ts, toHeatPoint kg.2 = g := by
  simp [useHeatmapData]

lemma toHeatPoint_tweets (g : Group) : (toHeatPoint g).tweets = g.tweets := rfl

/-- A member of a heat point is keyed (through its coordinates) to the
underlying group's key. -/
lemma mem_cluster_key {ts : List Tweet} {g : HeatPoint} {t : Tweet} {c : ℚ × ℚ}
    (hg : g ∈ useHeatmapData ts) (ht : t ∈ g.tweets) (hc : t.coordinates = some c) :
    ∃ kg ∈ buildGroups ts, toHeatPoint kg.2 = g ∧ kg.1 = tweetKey c := by
  obtain ⟨kg, hkg, hEq⟩ := mem_useHeatmapData.mp hg
  refine ⟨kg, hkg, hEq, ?_⟩
  have hOK := (groupsOK_buildGroups ts).2 kg hkg
  have hkey := hOK.2.2.2.2 t (by rw [← toHeatPoint_tweets, hEq]; exact ht)
  rw [keyOf, hc] at hkey
  simpa using hkey.symm

/-- Two alerts of the input share a cluster exactly when their coordinate keys
coincide. -/
lemma sameCluster_iff_key_eq {ts : List Tweet} {t1 t2 : Tweet} {c1 c2 : ℚ × ℚ}
    (h1 : t1 ∈ ts) (h2 : t2 ∈ ts)
    (hc1 : t1.coordinates = some c1) (hc2 : t2.coordinates = some c2) :
    sameCluster ts t1 t2 ↔ tweetKey c1 = tweetKey c2 := by
  constructor
  · rintro ⟨g, hg, m1, m2⟩
    obtain ⟨kg, hkg, hEq⟩ := mem_useHeatmapData.mp hg
    have hOK := (groupsOK_buildGroups ts).2 kg hkg
    have hkey1 := hOK.2.2.2.2 t1 (by rw [← toHeatPoint_tweets, hEq]; exact m1)
    have hkey2 := hOK.2.2.2.2 t2 (by rw [← toHeatPoint_tweets, hEq]; exact m2)
    rw [keyOf, hc1] at hkey1
    rw [keyOf, hc2] at hkey2
    have e1 : tweetKey c1 = kg.1 := by simpa using hkey1
    have e2 : tweetKey c2 = kg.1 := by simpa using hkey2
    rw [e1, e2]
  · intro hkey
    obtain ⟨g1, hg1, m1⟩ := buildGroups_mem (k := tweetKey c1) h1 (by simp [keyOf, hc1])
    obtain ⟨g2, hg2, m2⟩ := buildGroups_mem (k := tweetKey c2) h2 (by simp [keyOf, hc2])
    rw [hkey] at hg1
    have hgg : g1 = g2 := groupsOK_key_unique (groupsOK_buildGroups ts) hg1 hg2
    refine ⟨toHeatPoint g2, ?_, ?_, m2⟩
    · exact mem_useHeatmapData.mpr ⟨(tweetKey c2, g2), hg2, rfl⟩
    · rw [toHeatPoint_tweets, ← hgg]; exact m1

/-- A tweet belongs to at most one cluster. -/
lemma cluster_unique {ts : List Tweet} {g g' : HeatPoint} {t : Tweet} {c : ℚ × ℚ}
    (hg : g ∈ useHeatmapData ts) (hg' : g' ∈ useHeatmapData ts)
    (ht : t ∈ g.tweets) (ht' : t ∈ g'.tweets) (hc : t.coordinates = some c) :
    g = g' := by
  obtain ⟨kg, hkg, hEq, hk⟩ := mem_cluster_key hg ht hc
  obtain ⟨kg', hkg', hEq', hk'⟩ := mem_cluster_key hg' ht' hc
  have h2 : kg.2 = kg'.2 := by
    refine groupsOK_key_unique (groupsOK_buildGroups ts) (k := tweetKey c) ?_ ?_
    · have : kg = (tweetKey c, kg.2) := by rw [← hk]
      exact this ▸ hkg
    · have : kg' = (tweetKey c, kg'.2) := by rw [← hk']
      exact this ▸ hkg'
  rw [← hEq, ← hEq', h2]

lemma le_foldl_max (l : List ℚ) (a : ℚ) : a ≤ l.foldl max a := by
  induction l generalizing a with
  | nil => exact le_refl a
  | cons x xs ih => exact le_trans (le_max_left a x) (ih (max a x))

lemma mem_le_foldl_max {l : List ℚ} {x : ℚ} (hx : x ∈ l) (a : ℚ) : x ≤ l.foldl max a := by
  induction l generalizing a with
  | nil => cases hx
  | cons y ys ih =>
    rcases List.mem_cons.mp hx with rfl | h
    · exact le_trans (le_max_right a x) (le_foldl_max ys (max a x))
    · exact ih h (max a y)

lemma foldl_max_le {l : List ℚ} {c : ℚ} (h : ∀ x ∈ l, x ≤ c) :
    ∀ {a : ℚ}, a ≤ c → l.foldl max a ≤ c := by
  induction l with
  | nil => intro a ha; exact ha
  | cons x xs ih =>
    intro a ha
    exact ih (fun y hy => h y (List.mem_cons_of_mem _ hy))
      (max_le ha (h x (List.mem_cons_self _ _)))

lemma foldl_max_mem_or (l : List ℚ) (a : ℚ) : l.foldl max a = a ∨ l.foldl max a ∈ l := by
  induction l generalizing a with
  | nil => exact Or.inl rfl
  | cons x xs ih =>
    rcases ih (max a x) with h | h
    · rcases max_choice a x with hm | hm
      · exact Or.inl (by rw [List.foldl_cons, h, hm])
      · exact Or.inr (by rw [List.foldl_cons, h, hm]; exact List.mem_cons_self _ _)
    · exact Or.inr (List.mem_cons_of_mem _ h)

/-- For a non-empty list of nonnegative values, the `Math.max` fold seeded with
`0` lands on an actual member (the list maximum). -/
lemma foldl_max_zero_mem {l : List ℚ} (hne : l ≠ []) (h0 : ∀ x ∈ l, 0 ≤ x) :
    l.foldl max 0 ∈ l := by
  rcases foldl_max_mem_or l 0 with h | h
  · cases l with
    | nil => exact absurd rfl hne
    | cons x xs =>
      have hx : x ≤ (x :: xs).foldl max 0 := mem_le_foldl_max (List.mem_cons_self _ _) 0
      have hx0 : 0 ≤ x := h0 x (List.mem_cons_self _ _)
      have : x = 0 := le_antisymm (h ▸ hx) hx0
      rw [h, ← this]
      exact List.mem_cons_self _ _
  · exact h

/-- Claim C1, counterexample: the alerts at latitudes -0.0001 and 0.0001
(longitude 0) have coordinates that round identically at three decimal places
(both to (0.000, 0.000)), yet `useHeatmapData` puts them in different clusters,
because the `toFixed(3)` grouping key renders the first latitude as "-0.000"
and the second as "0.000".  This refutes the claimed "same cluster iff both
coordinates round identically" equivalence. -/
theorem cluster_split_at_signed_zero :
    negZeroAlert.coordinates = some (-(1 / 10000), 0) ∧
    posZeroAlert.coordinates = some (1 / 10000, 0) ∧
    roundTo3 (-(1 / 10000) : ℚ) = roundTo3 (1 / 10000 : ℚ) ∧
    ¬ sameCluster [negZeroAlert, posZeroAlert] negZeroAlert posZeroAlert := by
  refine ⟨rfl, rfl, by norm_num [roundTo3], ?_⟩
  rw [sameCluster_iff_key_eq (List.mem_cons_self _ _)
    (List.mem_cons_of_mem _ (List.mem_cons_self _ _)) rfl rfl]
  intro hkey
  have := congrArg (fun k => k.1.1) hkey
  norm_num [tweetKey, jsFixed3] at this

/-- Claim C1 (amended): two coordinate-bearing alerts of the input fall in the
same cluster of `useHeatmapData` iff their latitudes and longitudes round
identically at three decimal places AND agree on the sign prefix of the
`toFixed(3)` key (negative values rounding to zero produce a distinct "-0.000"
key); every coordinate-bearing alert belongs to exactly one cluster; and the two
alerts with coordinates (37.7750, -122.4190) and (37.7751, -122.4194) fall in
one cluster with count 2. -/
theorem clusters_partition_by_rounded_key (ts : List Tweet) (t1 t2 : Tweet)
    (c1 c2 : ℚ × ℚ) (h1 : t1 ∈ ts) (h2 : t2 ∈ ts)
    (hc1 : t1.coordinates = some c1) (hc2 : t2.coordinates = some c2) :
    (sameCluster ts t1 t2 ↔
      ((roundTo3 c1.1 = roundTo3 c2.1 ∧ (c1.1 < 0 ↔ c2.1 < 0)) ∧
       (roundTo3 c1.2 = roundTo3 c2.2 ∧ (c1.2 < 0 ↔ c2.2 < 0)))) ∧
    (∃! g, g ∈ useHeatmapData ts ∧ t1 ∈ g.tweets) ∧
    (∃ g ∈ useHeatmapData [sfAlertA, sfAlertB],
      sfAlertA ∈ g.tweets ∧ sfAlertB ∈ g.tweets ∧ g.count = 2) := by
  refine ⟨?_, ?_, ?_⟩
  · rw [sameCluster_iff_key_eq h1 h2 hc1 hc2, tweetKey_eq_iff]
  · obtain ⟨g1, hg1, m1⟩ := buildGroups_mem (k := tweetKey c1) h1 (by simp [keyOf, hc1])
    refine ⟨toHeatPoint g1, ⟨mem_useHeatmapData.mpr ⟨(tweetKey c1, g1), hg1, rfl⟩, m1⟩, ?_⟩
    rintro g' ⟨hg', m'⟩
    exact cluster_unique hg' (mem_useHeatmapData.mpr ⟨(tweetKey c1, g1), hg1, rfl⟩) m' m1 hc1
  · refine ⟨toHeatPoint (addTweet (addTweet (newGroup (37775 / 1000, -(122419 / 1000)))
      sfAlertA) sfAlertB), ?_, ?_, ?_, ?_⟩
    · norm_num [useHeatmapData, buildGroups, heatStep, upsertGroup, tweetKey, jsFixed3,
        sfAlertA, sfAlertB, mkTweet]
    · simp [toHeatPoint, addTweet, newGroup]
    · simp [toHeatPoint, addTweet, newGroup]
    · simp [toHeatPoint, addTweet, newGroup]

/-- Claim C1, witness: the two concrete specification alerts do land in one
common cluster, via the amended equivalence. -/
theorem clusters_partition_by_rounded_key_witness :
    sameCluster [sfAlertA, sfAlertB] sfAlertA sfAlertB := by
  refine ((clusters_partition_by_rounded_key [sfAlertA, sfAlertB] sfAlertA sfAlertB
    (37775 / 1000, -(122419 / 1000)) (377751 / 10000, -(1224194 / 10000))
    (List.mem_cons_self _ _) (List.mem_cons_of_mem _ (List.mem_cons_self _ _))
    rfl rfl).1).mpr ?_
  norm_num [roundTo3]

/-- Claim C5, counterexample: on the single alert with priority score -1,
`useHeatmapData` reports `maxPriority = 0` (the `Math.max` fold is seeded with
0) although the maximum of the members' scores is -1: the reported maximum is
not the maximum over the group's members. -/
theorem cluster_maxPriority_zero_seed :
    (useHeatmapData [negScoreAlert]).map
      (fun g => (g.maxPriority, g.tweets.map Tweet.priority_score)) = [(0, [-1])] ∧
    ¬ ((0 : ℚ) = -1) := by
  constructor
  · rw [show useHeatmapData [negScoreAlert] =
      [toHeatPoint (addTweet (newGroup (0, 0)) negScoreAlert)] from rfl]
    norm_num [toHeatPoint, addTweet, newGroup, negScoreAlert, mkTweet]
  · norm_num

/-- Claim C5 (amended): for every cluster, `count` equals the number of member
alerts and `avgPriority` is the arithmetic mean of the members' priority
scores; `maxPriority` equals the maximum of the members' priority scores
provided the scores are nonnegative (the implementation seeds the maximum
with 0). -/
theorem cluster_stats_correct_nonneg (ts : List Tweet)
    (g : HeatPoint) (hg : g ∈ useHeatmapData ts) :
    g.count = g.tweets.length ∧
    g.avgPriority = (g.tweets.map Tweet.priority_score).sum / (g.count : ℚ) ∧
    ((∀ t ∈ ts, 0 ≤ t.priority_score) →
      (∃ t ∈ g.tweets, g.maxPriority = t.priority_score) ∧
      (∀ t ∈ g.tweets, t.priority_score ≤ g.maxPriority)) := by
  obtain ⟨kg, hkg, hEq⟩ := mem_useHeatmapData.mp hg
  obtain ⟨hne, hcount, htot, hmax, -⟩ := (groupsOK_buildGroups ts).2 kg hkg
  have hmem := buildGroups_members kg hkg
  subst hEq
  refine ⟨?_, ?_, ?_⟩
  · show kg.2.count = kg.2.tweets.length
    exact hcount
  · show kg.2.totalPriority / (kg.2.count : ℚ) =
      (kg.2.tweets.map Tweet.priority_score).sum / (kg.2.count : ℚ)
    rw [htot]
  · intro hpos
    have hscores : ∀ x ∈ kg.2.tweets.map Tweet.priority_score, 0 ≤ x := by
      intro x hx
      obtain ⟨u, hu, rfl⟩ := List.mem_map.mp hx
      exact hpos u (hmem u hu)
    constructor
    · have hmm : kg.2.maxPriority ∈ kg.2.tweets.map Tweet.priority_score := by
        rw [hmax]
        exact foldl_max_zero_mem (by simpa using hne) hscores
      obtain ⟨u, hu, he⟩ := List.mem_map.mp hmm
      exact ⟨u, hu, he.symm⟩
    · intro t ht
      show t.priority_score ≤ kg.2.maxPriority
      rw [hmax]
      exact mem_le_foldl_max (List.mem_map_of_mem Tweet.priority_score ht) 0

/-- Claim C5, witness: the statistics of the singleton cluster built from the
nonnegative-score alert `sfAlertA`. -/
theorem cluster_stats_correct_nonneg_witness :
    sfSoloCluster.count = sfSoloCluster.tweets.length ∧
    sfSoloCluster.avgPriority =
      (sfSoloCluster.tweets.map Tweet.priority_score).sum / (sfSoloCluster.count : ℚ) ∧
    (∃ t ∈ sfSoloCluster.tweets, sfSoloCluster.maxPriority = t.priority_score) ∧
    (∀ t ∈ sfSoloCluster.tweets, t.priority_score ≤ sfSoloCluster.maxPriority) := by
  have h := cluster_stats_correct_nonneg [sfAlertA] sfSoloCluster
    (by rw [show useHeatmapData [sfAlertA] = [sfSoloCluster] from rfl]
        exact List.mem_cons_self _ _)
  have hmax := h.2.2
    (by intro t ht; rw [List.mem_singleton.mp ht]; norm_num [sfAlertA, mkTweet])
  exact ⟨h.1, h.2.1, hmax.1, hmax.2⟩

/-- Claim C6: an alert with no resolved coordinate is a member of no cluster,
the whole clustering output is unchanged by dropping such alerts (they
contribute to no group's count or statistics), and the alert is still rendered
unchanged in the raw alert feed built from the same list. -/
theorem uncoordinated_alerts_excluded (ts : List Tweet) (t : Tweet)
    (hmem : t ∈ ts) (hnc : t.coordinates = none) :
    (∀ g ∈ useHeatmapData ts, t ∉ g.tweets) ∧
    useHeatmapData ts = useHeatmapData (ts.filter (fun u => u.coordinates.isSome)) ∧
    renderFeedEntry t ∈ renderedFeed ts := by
  refine ⟨?_, ?_, List.mem_map_of_mem renderFeedEntry hmem⟩
  · intro g hg ht
    obtain ⟨kg, hkg, hEq⟩ := mem_useHeatmapData.mp hg
    have hOK := (groupsOK_buildGroups ts).2 kg hkg
    have hkey := hOK.2.2.2.2 t (by rw [← toHeatPoint_tweets, hEq]; exact ht)
    rw [keyOf, hnc] at hkey
    simp at hkey
  · unfold useHeatmapData buildGroups
    rw [foldl_heatStep_filter]

/-- Claim C6, witness: a concrete list holding one uncoordinated alert. -/
theorem uncoordinated_alerts_excluded_witness :
    (∀ g ∈ useHeatmapData [mkTweet "nocoord" none 1, sfAlertA],
      mkTweet "nocoord" none 1 ∉ g.tweets) ∧
    renderFeedEntry (mkTweet "nocoord" none 1) ∈
      renderedFeed [mkTweet "nocoord" none 1, sfAlertA] := by
  have h := uncoordinated_alerts_excluded [mkTweet "nocoord" none 1, sfAlertA]
    (mkTweet "nocoord" none 1) (List.mem_cons_self _ _) rfl
  exact ⟨h.1, h.2.2⟩

/-- Claim C7: the clustering operation is deterministic — two runs of
`useHeatmapData` on the same input list produce identical clusters, with the
same groupings, counts, maximum priorities and average priorities. -/
theorem useHeatmapData_deterministic (ts1 ts2 : List Tweet) (h : ts1 = ts2) :
    useHeatmapData ts1 = useHeatmapData ts2 ∧
    (useHeatmapData ts1).map HeatPoint.tweets = (useHeatmapData ts2).map HeatPoint.tweets ∧
    (useHeatmapData ts1).map HeatPoint.count = (useHeatmapData ts2).map HeatPoint.count ∧
    (useHeatmapData ts1).map HeatPoint.maxPriority =
      (useHeatmapData ts2).map HeatPoint.maxPriority ∧
    (useHeatmapData ts1).map HeatPoint.avgPriority =
      (useHeatmapData ts2).map HeatPoint.avgPriority := by
  subst h
  exact ⟨rfl, rfl, rfl, rfl, rfl⟩

/-- Claim C7, witness: determinism at a concrete input list. -/
theorem useHeatmapData_deterministic_witness :
    useHeatmapData [negZeroAlert, posZeroAlert] = useHeatmapData [negZeroAlert, posZeroAlert] :=
  (useHeatmapData_deterministic [negZeroAlert, posZeroAlert] [negZeroAlert, posZeroAlert] rfl).1

/-- Claim C9: when every input priority score lies in [0, 1], every cluster has
`count ≥ 1`, `count` equal to the length of its stored member list, and
`0 ≤ avgPriority ≤ maxPriority ≤ 1`. -/
theorem cluster_stats_bounded (ts : List Tweet)
    (hbnd : ∀ t ∈ ts, 0 ≤ t.priority_score ∧ t.priority_score ≤ 1)
    (g : HeatPoint) (hg : g ∈ useHeatmapData ts) :
    1 ≤ g.count ∧ g.count = g.tweets.length ∧
    0 ≤ g.avgPriority ∧ g.avgPriority ≤ g.maxPriority ∧ g.maxPriority ≤ 1 := by
  obtain ⟨kg, hkg, hEq⟩ := mem_useHeatmapData.mp hg
  obtain ⟨hne, hcount, htot, hmax, -⟩ := (groupsOK_buildGroups ts).2 kg hkg
  have hmem := buildGroups_members kg hkg
  have hlow : ∀ x ∈ kg.2.tweets.map Tweet.priority_score, 0 ≤ x := by
    intro x hx
    obtain ⟨u, hu, rfl⟩ := List.mem_map.mp hx
    exact (hbnd u (hmem u hu)).1
  have hhigh : ∀ x ∈ kg.2.tweets.map Tweet.priority_score, x ≤ 1 := by
    intro x hx
    obtain ⟨u, hu, rfl⟩ := List.mem_map.mp hx
    exact (hbnd u (hmem u hu)).2
  have hlen : 0 < kg.2.tweets.length := List.length_pos.mpr hne
  have hcq : 0 < (kg.2.count : ℚ) := by
    rw [hcount]
    exact_mod_cast hlen
  subst hEq
  refine ⟨?_, hcount, ?_, ?_, ?_⟩
  · show 1 ≤ kg.2.count
    omega
  · show 0 ≤ kg.2.totalPriority / (kg.2.count : ℚ)
    exact div_nonneg (htot ▸ List.sum_nonneg hlow) (le_of_lt hcq)
  · show kg.2.totalPriority / (kg.2.count : ℚ) ≤ kg.2.maxPriority
    rw [div_le_iff₀ hcq, htot, hmax]
    have hub : ∀ x ∈ kg.2.tweets.map Tweet.priority_score,
        x ≤ (kg.2.tweets.map Tweet.priority_score).foldl max 0 :=
      fun x hx => mem_le_foldl_max hx 0
    calc (kg.2.tweets.map Tweet.priority_score).sum
        ≤ (kg.2.tweets.map Tweet.priority_score).length •
            ((kg.2.tweets.map Tweet.priority_score).foldl max 0) :=
          List.sum_le_card_nsmul _ _ hub
      _ = ((kg.2.tweets.map Tweet.priority_score).foldl max 0) * (kg.2.count : ℚ) := by
          rw [nsmul_eq_mul, List.length_map, ← hcount, mul_comm]
  · show kg.2.maxPriority ≤ 1
    rw [hmax]
    exact foldl_max_le hhigh (by norm_num)

/-- Claim C9, witness: the bounds at the singleton cluster built from
`sfAlertB` (priority score 0.8). -/
theorem cluster_stats_bounded_witness :
    1 ≤ sfSoloClusterB.count ∧ sfSoloClusterB.count = sfSoloClusterB.tweets.length ∧
    0 ≤ sfSoloClusterB.avgPriority ∧
    sfSoloClusterB.avgPriority ≤ sfSoloClusterB.maxPriority ∧
    sfSoloClusterB.maxPriority ≤ 1 :=
  cluster_stats_bounded [sfAlertB]
    (by intro t ht; rw [List.mem_singleton.mp ht]; norm_num [sfAlertB, mkTweet])
    sfSoloClusterB
    (by rw [show useHeatmapData [sfAlertB] = [sfSoloClusterB] from rfl]
        exact List.mem_cons_self _ _)

/-- Claim C4: for a non-empty fetched list, the view built by `loadTweets` is
the stable priority-descending sort of the fetch result: scores are
non-increasing, the output is a permutation of the input, alerts of any fixed
score keep their relative order from the input, and when the input is
most-recent-first, equal-score alerts remain most-recent-first. -/
theorem loadTweets_sort_desc_stable (ts : List Tweet) (hne : ts ≠ []) :
    loadTweets true (Except.ok ts) 0 = sortByPriorityDesc ts ∧
    (sortByPriorityDesc ts).Pairwise (fun a b => b.priority_score ≤ a.priority_score) ∧
    (sortByPriorityDesc ts).Perm ts ∧
    (∀ q : ℚ, (sortByPriorityDesc ts).filter (fun u => decide (u.priority_score = q)) =
      ts.filter (fun u => decide (u.priority_score = q))) ∧
    (ts.Pairwise (fun a b => b.timestamp ≤ a.timestamp) →
      (sortByPriorityDesc ts).Pairwise
        (fun a b => a.priority_score = b.priority_score → b.timestamp ≤ a.timestamp)) := by
  refine ⟨?_, sortByPriorityDesc_sorted ts, sortByPriorityDesc_perm ts,
    sortByPriorityDesc_filter ts, fun h => sortByPriorityDesc_tiebreak h⟩
  have hlen : 0 < ts.length := List.length_pos.mpr hne
  simp [loadTweets, fetchLiveTweets, hlen]

/-- Claim C4, witness: the sort at a concrete two-element fetch. -/
theorem loadTweets_sort_desc_stable_witness :
    loadTweets true (Except.ok wSortList) 0 = sortByPriorityDesc wSortList ∧
    (sortByPriorityDesc wSortList).Pairwise
      (fun a b => b.priority_score ≤ a.priority_score) :=
  ⟨(loadTweets_sort_desc_stable wSortList (by simp [wSortList])).1,
   (loadTweets_sort_desc_stable wSortList (by simp [wSortList])).2.1⟩

/-- Claim C10: every completed `loadTweets` run displays a non-empty list;
an offline API or an empty live fetch substitutes the fixed five-element mock
list, each entry of which carries `simulation = true`. -/
theorem loadTweets_nonempty_with_mock_fallback (apiOnline : Bool)
    (fetched : Except String (List Tweet)) (now : ℚ) :
    loadTweets apiOnline fetched now ≠ [] ∧
    ((apiOnline = false ∨ fetchLiveTweets fetched = []) →
      loadTweets apiOnline fetched now = getMockTweets now) ∧
    (getMockTweets now).length = 5 ∧
    (∀ t ∈ getMockTweets now, t.simulation = true) := by
  refine ⟨?_, ?_, by simp [getMockTweets], ?_⟩
  · cases apiOnline with
    | false => simp [loadTweets, getMockTweets]
    | true =>
      by_cases hlen : 0 < (fetchLiveTweets fetched).length
      · rw [loadTweets, if_pos rfl, if_pos hlen]
        intro hcon
        rw [← List.length_eq_zero] at hcon
        rw [(sortByPriorityDesc_perm (fetchLiveTweets fetched)).length_eq] at hcon
        omega
      · rw [loadTweets, if_pos rfl, if_neg hlen]
        simp [getMockTweets]
  · rintro (rfl | hemp)
    · rfl
    · cases apiOnline with
      | false => rfl
      | true =>
        rw [loadTweets, if_pos rfl, if_neg (by rw [hemp]; simp)]
  · intro t ht
    simp only [getMockTweets, List.mem_cons, List.not_mem_nil, or_false] at ht
    rcases ht with rfl | rfl | rfl | rfl | rfl <;> rfl

/-- Claim C10, witness: the offline-API run displays exactly the mock list. -/
theorem loadTweets_nonempty_with_mock_fallback_witness :
    loadTweets false (Except.error "connection refused") 0 ≠ [] ∧
    loadTweets false (Except.error "connection refused") 0 = getMockTweets 0 :=
  ⟨(loadTweets_nonempty_with_mock_fallback false (Except.error "connection refused") 0).1,
   (loadTweets_nonempty_with_mock_fallback false (Except.error "connection refused") 0).2.1
     (Or.inl rfl)⟩

/-- Claim C2: the priority score is the weighted sum of base confidence and the
urgency, location and keyword bonuses, clamped to [0, 1]: it always lies in
[0, 1], a raw sum above 1 saturates at exactly 1, and a raw sum already inside
[0, 1] is returned unchanged; and every mock alert's stored confidence and
priority score lie in [0, 1]. -/
theorem priorityScore_clamped_unit_interval (cfg : ScoreConfig) (conf : ℚ)
    (urgent hasCoord hasTextLoc kw : Bool) (now : ℚ) :
    (0 ≤ priorityScore cfg conf urgent hasCoord hasTextLoc kw ∧
     priorityScore cfg conf urgent hasCoord hasTextLoc kw ≤ 1) ∧
    (1 < priorityRaw cfg conf urgent hasCoord hasTextLoc kw →
      priorityScore cfg conf urgent hasCoord hasTextLoc kw = 1) ∧
    (0 ≤ priorityRaw cfg conf urgent hasCoord hasTextLoc kw →
      priorityRaw cfg conf urgent hasCoord hasTextLoc kw ≤ 1 →
      priorityScore cfg conf urgent hasCoord hasTextLoc kw =
        priorityRaw cfg conf urgent hasCoord hasTextLoc kw) ∧
    (∀ t ∈ getMockTweets now,
      (0 ≤ t.confidence ∧ t.confidence ≤ 1) ∧
      (0 ≤ t.priority_score ∧ t.priority_score ≤ 1)) := by
  refine ⟨⟨le_max_left 0 _, max_le (by norm_num) (min_le_left 1 _)⟩, ?_, ?_, ?_⟩
  · intro h
    rw [priorityScore, min_eq_left (le_of_lt h), max_eq_right (by norm_num : (0 : ℚ) ≤ 1)]
  · intro h0 h1
    rw [priorityScore, min_eq_right h1, max_eq_right h0]
  · intro t ht
    simp only [getMockTweets, List.mem_cons, List.not_mem_nil, or_false] at ht
    rcases ht with rfl | rfl | rfl | rfl | rfl <;> norm_num

/-- Claim C2, witness: with the documented bonuses and mock_1's factors
(confidence 0.911, urgent, coordinates resolved) the raw sum 1.411 exceeds 1
and the final score saturates at exactly 1. -/
theorem priorityScore_clamped_unit_interval_witness :
    1 < priorityRaw docConfig (911 / 1000) true true false false ∧
    priorityScore docConfig (911 / 1000) true true false false = 1 :=
  ⟨by norm_num [priorityRaw, docConfig],
   (priorityScore_clamped_unit_interval docConfig (911 / 1000) true true false false 0).2.1
     (by norm_num [priorityRaw, docConfig])⟩

/-- Claim C8: the urgency bonus is one fixed configured amount: any text
containing at least one urgency term receives exactly the configured bonus,
independent of which term matched and of how many urgency terms it contains. -/
theorem urgencyBonus_fixed_amount (kws : List String) (b : ℚ)
    (text1 text2 : List String)
    (h1 : ∃ k ∈ kws, k ∈ text1) (h2 : ∃ k ∈ kws, k ∈ text2) :
    urgencyBonusOf kws b text1 = b ∧
    urgencyBonusOf kws b text1 = urgencyBonusOf kws b text2 := by
  have e1 : urgencyBonusOf kws b text1 = b := by rw [urgencyBonusOf, if_pos h1]
  have e2 : urgencyBonusOf kws b text2 = b := by rw [urgencyBonusOf, if_pos h2]
  exact ⟨e1, e1.trans e2.symm⟩

/-- Claim C8, witness: a text with two urgency terms and a text with one
different urgency term both receive the same fixed bonus 0.3. -/
theorem urgencyBonus_fixed_amount_witness :
    urgencyBonusOf ["urgent", "help", "emergency"] (3 / 10) ["urgent", "help", "now"] =
      3 / 10 ∧
    urgencyBonusOf ["urgent", "help", "emergency"] (3 / 10) ["urgent", "help", "now"] =
      urgencyBonusOf ["urgent", "help", "emergency"] (3 / 10) ["please", "help"] :=
  urgencyBonus_fixed_amount ["urgent", "help", "emergency"] (3 / 10)
    ["urgent", "help", "now"] ["please", "help"]
    ⟨"urgent", List.mem_cons_self _ _, List.mem_cons_self _ _⟩
    ⟨"help", List.mem_cons_of_mem _ (List.mem_cons_self _ _),
      List.mem_cons_of_mem _ (List.mem_cons_self _ _)⟩

/-- Claim C3, counterexample: when the first provider returns a non-error but
empty result (`Except.ok []`) and the backup returns `[7]`, the fallback does
NOT stop at the first provider: it consults the backup (flag `true`) and
returns the backup's items instead of the empty first result.  This refutes
"succeeds and stops trying further providers as soon as one provider returns
a non-error result, even when that result is an empty set" and "a later
provider is consulted only after the previous one raised an error". -/
theorem fallback_advances_on_empty_result :
    searchTweetsResilient (Except.ok ([] : List ℕ)) (Except.ok [7]) [9] =
      ([7], true, false) ∧
    (searchTweetsResilient (Except.ok ([] : List ℕ)) (Except.ok [7]) [9]).1 ≠ [] := by
  constructor
  · rfl
  · intro h
    simp [searchTweetsResilient, resilientTail] at h

/-- Claim C3 (amended): the fallback chain keeps a provider's result exactly
when it is non-error AND non-empty; a later provider is consulted precisely
when every earlier provider raised an error or returned an empty result; the
terminal simulation provider's result is returned as-is.  The same discipline
holds for the two-stage `search_tweets_with_fallback`. -/
theorem fallback_first_nonempty_success {α : Type}
    (primary backup : Except String (List α)) (simulation : List α) :
    (∀ ts, primary = Except.ok ts → ts ≠ [] →
      searchTweetsResilient primary backup simulation = (ts, false, false)) ∧
    ((searchTweetsResilient primary backup simulation).2.1 = true ↔
      (primary = Except.ok [] ∨ ∃ e, primary = Except.error e)) ∧
    (∀ ts, (primary = Except.ok [] ∨ ∃ e, primary = Except.error e) →
      backup = Except.ok ts → ts ≠ [] →
      searchTweetsResilient primary backup simulation = (ts, true, false)) ∧
    ((primary = Except.ok [] ∨ ∃ e, primary = Except.error e) →
      (backup = Except.ok [] ∨ ∃ e, backup = Except.error e) →
      searchTweetsResilient primary backup simulation = (simulation, true, true)) ∧
    (∀ ts, searchTweetsWithFallback false (Except.ok ts) simulation =
      if ts.isEmpty then (simulation, true) else (ts, false)) ∧
    (∀ e, searchTweetsWithFallback false (Except.error e : Except String (List α))
      simulation = (simulation, true)) := by
  have htail : ∀ ts, backup = Except.ok ts → ts ≠ [] →
      resilientTail backup simulation = (ts, false) := by
    intro ts hb hne
    rw [hb, resilientTail, if_neg (by simpa [List.isEmpty_iff] using hne)]
  have htail' : (backup = Except.ok [] ∨ ∃ e, backup = Except.error e) →
      resilientTail backup simulation = (simulation, true) := by
    rintro (rfl | ⟨e, rfl⟩)
    · rfl
    · rfl
  refine ⟨?_, ?_, ?_, ?_, ?_, ?_⟩
  · rintro ts rfl hne
    rw [searchTweetsResilient, if_neg (by simpa [List.isEmpty_iff] using hne)]
  · cases primary with
    | ok ts =>
      cases ts with
      | nil => simp [searchTweetsResilient]
      | cons x xs => simp [searchTweetsResilient]
    | error e => simp [searchTweetsResilient]
  · rintro ts hp hb hne
    have ht := htail ts hb hne
    rcases hp with rfl | ⟨e, rfl⟩
    · rw [searchTweetsResilient]
      simp [ht]
    · rw [searchTweetsResilient, ht]
  · intro hp hb
    have ht := htail' hb
    rcases hp with rfl | ⟨e, rfl⟩
    · rw [searchTweetsResilient]
      simp [ht]
    · rw [searchTweetsResilient, ht]
  · intro ts
    rfl
  · intro e
    rfl

/-- Claim C3, witness: a failing primary and a non-empty backup — the backup
is consulted and its non-empty result is kept without touching simulation. -/
theorem fallback_first_nonempty_success_witness :
    searchTweetsResilient (Except.error "down" : Except String (List ℕ))
      (Except.ok [5]) [9] = ([5], true, false) :=
  (fallback_first_nonempty_success (Except.error "down") (Except.ok [5]) [9]).2.2.1
    [5] (Or.inr ⟨"down", rfl⟩) rfl (by simp)

end DisasterTriage
